import Mathlib

/-!
Verification of the Python_Autograder grading engine (`src/V3/autograder.py`)
against its natural-language specification.

The engine's runtime values are shallowly embedded: Python `int`/`float`
values become rationals (`ℚ`), `None` becomes `PyVal.noneV`, lists/tuples
become Lean lists of embedded values, and numpy arrays become lists of
rationals.  The embedding covers one-dimensional sequences, which is the
scope exercised by every claim; nested (multi-dimensional or ragged)
sequence content is treated as taking numpy's exception path.  Log messages
are modelled structurally: each `Msg` constructor corresponds to one
f-string built by `AutoGrader._log_result`'s callers and carries the values
that the source interpolates into that string.  Methods from which a Python
exception can escape are modelled with an `Option` result, `Option.none`
standing for an exception propagating past the method's boundary.
-/

/-- Embedded Python runtime values (the fragment the grading engine
compares): `None`, numbers (`int` and `float` merged into `ℚ`, matching
Python's value-based `==` across the two), lists, tuples, and
one-dimensional numpy arrays of numbers. -/
inductive PyVal where
  | noneV : PyVal
  | num : ℚ → PyVal
  | list : List PyVal → PyVal
  | tuple : List PyVal → PyVal
  | array : List ℚ → PyVal

/-- Structural model of the messages the engine logs.  Each constructor
corresponds to one message format string in `autograder.py` and carries the
interpolated values. -/
inductive Msg where
  | notExecuted : String → Msg
  | varNotFound : String → Msg
  | isNoneAsExpected : String → Msg
  | numMatch : String → ℚ → Msg
  | numMismatch : String → ℚ → ℚ → Msg
  | seqMatch : String → Msg
  | seqMismatch : String → Msg
  | eqMatch : String → Msg
  | eqMismatch : String → Msg
  | notArrayOrList : String → Msg
  | shapeMismatch : String → List ℕ → List ℕ → Msg
  | arrEqMatch : String → Msg
  | arrEqMismatch : String → Msg
  | typeMismatch : String → String → String → Msg
  | couldNotConvert : String → Msg
  | solutionMatch : String → ℚ → Msg
  | solutionMatchFallback : String → Msg
  | solutionMismatchFallback : String → Msg
  | differsAt : String → ℕ → ℚ → ℚ → Msg
  | sizeExactOk : String → ℕ → Msg
  | sizeExactBad : String → ℕ → ℕ → Msg
  | sizeMinOk : String → ℕ → ℕ → Msg
  | sizeMinBad : String → ℕ → ℕ → Msg
  | sizeMaxOk : String → ℕ → ℕ → Msg
  | sizeMaxBad : String → ℕ → ℕ → Msg
deriving DecidableEq, Repr

/-- One entry of the result ledger (`AutoGrader.test_results`): the
`passed` flag and the logged message.  The source also stores the chosen
display text when custom feedback is supplied; custom feedback only
replaces the displayed string and never changes `passed` or the number of
appended records, so it is not modelled. -/
structure TestResult where
  passed : Bool
  message : Msg
deriving DecidableEq, Repr

/-- The engine state the value-checking methods read: whether
`execute_script` succeeded and the captured-variables mapping (a Python
dict, embedded as an association list with unique keys). -/
structure AutoGrader where
  executionSuccessful : Bool
  capturedVars : List (String × PyVal)

/-- `isinstance(v, (list, tuple, np.ndarray))`. -/
def isSeqLike : PyVal → Bool
  | PyVal.list _ => true
  | PyVal.tuple _ => true
  | PyVal.array _ => true
  | _ => false

/-- `isinstance(v, (int, float))`. -/
def isNum : PyVal → Bool
  | PyVal.num _ => true
  | _ => false

/-- Extracts the numbers of a flat, all-numeric element list; fails on any
non-numeric element (numpy then builds an object array, on which the
tolerant comparison raises). -/
def asNums : List PyVal → Option (List ℚ)
  | [] => some []
  | PyVal.num q :: rest => (asNums rest).map (q :: ·)
  | _ => Option.none

/-- Coercion of a sequence-like value to a 1-D numeric array
(`np.array(v)` followed by use in a numeric comparison).  Fails when the
content is not flat numeric. -/
def toArr : PyVal → Option (List ℚ)
  | PyVal.list xs => asNums xs
  | PyVal.tuple xs => asNums xs
  | PyVal.array xs => some xs
  | _ => Option.none

/-- `np.array(v).shape` for the embedded (at most one-dimensional)
values: scalars and `None` give a 0-d shape, sequences a 1-d shape. -/
def npShape : PyVal → List ℕ
  | PyVal.noneV => []
  | PyVal.num _ => []
  | PyVal.list xs => [xs.length]
  | PyVal.tuple xs => [xs.length]
  | PyVal.array xs => [xs.length]

/-- numpy's default relative tolerance `rtol=1e-05`, which
`np.allclose(..., atol=tolerance)` keeps because the source never
overrides it. -/
def rtolDefault : ℚ := 1 / 100000

/-- Elementwise `np.allclose` test on two equal-length number lists:
`|a_i - b_i| <= atol + rtol * |b_i|` for every position. -/
def ncloseAll (as bs : List ℚ) (atol : ℚ) : Bool :=
  (as.zip bs).all fun p => |p.1 - p.2| ≤ atol + rtolDefault * |p.2|

/-- `np.allclose(a, b, atol)` on 1-D inputs, including numpy's shape
broadcasting: equal lengths compare elementwise, a length-1 side is
broadcast against the other, and any other length combination raises
(modelled as `Option.none`). -/
def allclose (as bs : List ℚ) (atol : ℚ) : Option Bool :=
  if as.length = bs.length then some (ncloseAll as bs atol)
  else if as.length = 1 then some (ncloseAll (bs.map fun _ => as.headD 0) bs atol)
  else if bs.length = 1 then some (ncloseAll as (as.map fun _ => bs.headD 0) atol)
  else Option.none

/-- Truthiness of a numpy elementwise comparison result: an empty result
is falsy (legacy numpy), a single element is its own truth value, and more
than one element raises numpy's "ambiguous truth value" error (modelled as
`Option.none`). -/
def boolOfCmpArray (bs : List Bool) : Option Bool :=
  match bs with
  | [] => some false
  | [b] => some b
  | _ => Option.none

/-- Elementwise `==` between an embedded number and an embedded value (the
per-cell comparison numpy performs after broadcasting). -/
def pyElemEqNum (x : ℚ) : PyVal → Bool
  | PyVal.num q => x == q
  | _ => false

/-- Truthiness of `np.array(xs) == ys` for a 1-D numeric array against a
1-D sequence of embedded values: elementwise after broadcasting when the
lengths allow it, a scalar `False` when they are unbroadcastable. -/
def arrayEqList (xs : List ℚ) (ys : List PyVal) : Option Bool :=
  if xs.length = ys.length then
    boolOfCmpArray ((xs.zip ys).map fun p => pyElemEqNum p.1 p.2)
  else if xs.length = 1 then
    boolOfCmpArray (ys.map fun y => pyElemEqNum (xs.headD 0) y)
  else if ys.length = 1 then
    boolOfCmpArray (xs.map fun x => pyElemEqNum x (ys.headD PyVal.noneV))
  else some false

mutual

/-- Truthiness of Python `a == b` over the embedded domain, as used in the
engine's `if actual_value == expected_value:` fallbacks.  `Option.none`
models a raised exception (numpy's ambiguous-truth-value `ValueError`)
escaping the comparison.  A numpy array compared against anything yields
an elementwise result whose truthiness is only defined for at most one
element; `None` and numbers compare plainly; CPython compares two lists
(or two tuples) of unequal length as unequal without looking at elements,
and walks equal-length ones elementwise — so the exception of an embedded
element comparison (e.g. two multi-element arrays nested in the lists)
propagates.  Object-identity shortcuts are not modelled: every occurrence
counts as a distinct object, as for values rebuilt by two executions. -/
def truthyEq : PyVal → PyVal → Option Bool
  | PyVal.array xs, PyVal.array ys => arrayEqList xs (ys.map PyVal.num)
  | PyVal.array xs, PyVal.list ys => arrayEqList xs ys
  | PyVal.array xs, PyVal.tuple ys => arrayEqList xs ys
  | PyVal.list ys, PyVal.array xs => arrayEqList xs ys
  | PyVal.tuple ys, PyVal.array xs => arrayEqList xs ys
  | PyVal.array xs, v => arrayEqList xs [v]
  | v, PyVal.array xs => arrayEqList xs [v]
  | PyVal.noneV, PyVal.noneV => some true
  | PyVal.num a, PyVal.num b => some (decide (a = b))
  | PyVal.list xs, PyVal.list ys =>
    if xs.length = ys.length then truthyEqElems xs ys else some false
  | PyVal.tuple xs, PyVal.tuple ys =>
    if xs.length = ys.length then truthyEqElems xs ys else some false
  | _, _ => some false

/-- CPython's elementwise walk over two equal-length element lists: stop
at the first pair whose comparison is false; an element comparison with no
truth value is the raised exception, ending the walk. -/
def truthyEqElems : List PyVal → List PyVal → Option Bool
  | x :: xs, y :: ys =>
    match truthyEq x y with
    | Option.none => Option.none
    | some false => some false
    | some true => truthyEqElems xs ys
  | _, _ => some true

end

/-- The final `actual_value == expected_value` fallback of
`check_variable_value` (reached when neither the numeric nor the tolerant
sequence comparison settled the check). -/
def eqFallback (varName : String) (actualValue expectedValue : PyVal) :
    Option (Bool × List TestResult) :=
  match truthyEq actualValue expectedValue with
  | some true => some (true, [⟨true, Msg.eqMatch varName⟩])
  | some false => some (false, [⟨false, Msg.eqMismatch varName⟩])
  | Option.none => Option.none

/-- The body of `AutoGrader.check_variable_value` after the captured value
has been looked up: the `None`/`None` test, then the numeric tolerance
test, then the tolerant sequence comparison (whose `try` block falls
through to the `==` fallback when `np.allclose` raises), then the `==`
fallback. -/
def checkVariableValueWithActual (varName : String) (actualValue expectedValue : PyVal)
    (tolerance : ℚ) : Option (Bool × List TestResult) :=
  match actualValue, expectedValue with
  | PyVal.noneV, PyVal.noneV =>
    some (true, [⟨true, Msg.isNoneAsExpected varName⟩])
  | PyVal.num a, PyVal.num e =>
    if |a - e| ≤ tolerance then
      some (true, [⟨true, Msg.numMatch varName a⟩])
    else
      some (false, [⟨false, Msg.numMismatch varName a e⟩])
  | _, _ =>
    if isSeqLike expectedValue && isSeqLike actualValue then
      match toArr actualValue, toArr expectedValue with
      | some as, some es =>
        match allclose as es tolerance with
        | some true => some (true, [⟨true, Msg.seqMatch varName⟩])
        | some false => some (false, [⟨false, Msg.seqMismatch varName⟩])
        | Option.none => eqFallback varName actualValue expectedValue
      | _, _ => eqFallback varName actualValue expectedValue
    else eqFallback varName actualValue expectedValue

/-- `AutoGrader.check_variable_value(var_name, expected_value, tolerance)`.
Returns the boolean result together with the ledger records it appends;
`Option.none` models an exception escaping the method (numpy ambiguous
truth value in the unguarded `==` fallback). -/
def checkVariableValue (g : AutoGrader) (varName : String) (expectedValue : PyVal)
    (tolerance : ℚ) : Option (Bool × List TestResult) :=
  if g.executionSuccessful = false then
    some (false, [⟨false, Msg.notExecuted varName⟩])
  else
    match g.capturedVars.lookup varName with
    | Option.none => some (false, [⟨false, Msg.varNotFound varName⟩])
    | some actualValue => checkVariableValueWithActual varName actualValue expectedValue tolerance

/-- `AutoGrader.check_array_equals(var_name, expected_array, tolerance)`:
precondition failures, coercion of a list/tuple to an array, the explicit
shape gate, then `np.allclose(..., atol=tolerance)` (whose default
`rtol=1e-05` is kept and which is not wrapped in a `try`, so non-numeric
content makes it raise out of the method — modelled as `Option.none`). -/
def checkArrayEquals (g : AutoGrader) (varName : String) (expectedArray : PyVal)
    (tolerance : ℚ) : Option (Bool × List TestResult) :=
  if g.executionSuccessful = false then
    some (false, [⟨false, Msg.notExecuted varName⟩])
  else
    match g.capturedVars.lookup varName with
    | Option.none => some (false, [⟨false, Msg.varNotFound varName⟩])
    | some actualValue =>
      if isSeqLike actualValue = false then
        some (false, [⟨false, Msg.notArrayOrList varName⟩])
      else if npShape actualValue ≠ npShape expectedArray then
        some (false,
          [⟨false, Msg.shapeMismatch varName (npShape actualValue) (npShape expectedArray)⟩])
      else
        match toArr actualValue, toArr expectedArray with
        | some as, some es =>
          if ncloseAll as es tolerance then some (true, [⟨true, Msg.arrEqMatch varName⟩])
          else some (false, [⟨false, Msg.arrEqMismatch varName⟩])
        | _, _ => Option.none

/-- The type names `_compare_values_detailed` interpolates into its
`require_same_type` failure message. -/
def typeNameOf (isArray : Bool) : String :=
  if isArray then "numpy array" else "list"

/-- `AutoGrader._compare_values_detailed(var_name, student_value,
solution_value, tolerance, require_same_type)`: the `require_same_type`
gate, the shape gate, then the absolute-difference walk reporting the
first index exceeding the tolerance; scalar and `==` fallbacks otherwise.
`Option.none` models an exception escaping (non-numeric sequence content
makes both the difference computation and the except-branch's
`np.allclose` raise; an ambiguous array/scalar `==` raises in the
fallback). -/
def compareValuesDetailed (varName : String) (studentValue solutionValue : PyVal)
    (tolerance : ℚ) (requireSameType : Bool) : Option (Bool × List TestResult) :=
  let studentIsArray : Bool := match studentValue with | PyVal.array _ => true | _ => false
  let solutionIsArray : Bool := match solutionValue with | PyVal.array _ => true | _ => false
  if isSeqLike studentValue && isSeqLike solutionValue then
    if requireSameType && (studentIsArray != solutionIsArray) then
      some (false,
        [⟨false, Msg.typeMismatch varName (typeNameOf studentIsArray) (typeNameOf solutionIsArray)⟩])
    else
      -- the `np.array(...)` conversion `try` block: on the embedded 1-D
      -- domain the conversion always succeeds (only ragged nested input
      -- raises there), so the `could not be converted` branch is unreachable
      if npShape studentValue ≠ npShape solutionValue then
        some (false,
          [⟨false, Msg.shapeMismatch varName (npShape studentValue) (npShape solutionValue)⟩])
      else
        match toArr studentValue, toArr solutionValue with
        | some ss, some os =>
          if ss.length = 0 then
            -- `np.max` of the empty difference array raises; the except
            -- branch falls back to `np.allclose`, vacuously true on empty input
            some (true, [⟨true, Msg.solutionMatchFallback varName⟩])
          else
            let differences := (ss.zip os).map fun p => |p.1 - p.2|
            let maxDiff := differences.foldl max 0
            if maxDiff ≤ tolerance then
              some (true, [⟨true, Msg.solutionMatch varName maxDiff⟩])
            else
              let firstIdx := (ss.zip os).findIdx fun p => tolerance < |p.1 - p.2|
              some (false,
                [⟨false, Msg.differsAt varName firstIdx (ss.getD firstIdx 0) (os.getD firstIdx 0)⟩])
        | _, _ =>
          -- non-numeric content: the subtraction raises and the except
          -- branch's `np.allclose` raises again, escaping the method
          Option.none
  else
    match studentValue, solutionValue with
    | PyVal.num s, PyVal.num o =>
      if |s - o| ≤ tolerance then some (true, [⟨true, Msg.solutionMatchFallback varName⟩])
      else some (false, [⟨false, Msg.numMismatch varName s o⟩])
    | _, _ =>
      match truthyEq studentValue solutionValue with
      | some true => some (true, [⟨true, Msg.solutionMatchFallback varName⟩])
      | some false => some (false, [⟨false, Msg.eqMismatch varName⟩])
      | Option.none => Option.none

/-- The capture step of `execute_script` when `variables_to_capture` is
`None`: every top-level binding whose name does not start with `_` and is
not `__builtins__`. -/
def captureAll (ns : List (String × PyVal)) : List (String × PyVal) :=
  ns.filter fun kv => !kv.1.startsWith "_" && kv.1 != "__builtins__"

/-- The capture step of `execute_script` for a caller-specified list:
`{var: namespace.get(var, None) for var in variables_to_capture}` — every
requested name becomes a key, missing ones mapped to `None`. -/
def captureSubset (ns : List (String × PyVal)) (varsToCapture : List String) :
    List (String × PyVal) :=
  varsToCapture.map fun v => (v, (ns.lookup v).getD PyVal.noneV)

/-- `AutoGrader.execute_script` after a run that completed without raising:
`ns` is the final top-level binding table the script produced (keys
unique, as in a Python dict).  Returns the method's boolean result and the
captured-variables snapshot. -/
def executeScript (ns : List (String × PyVal)) (varsToCapture : Option (List String)) :
    Bool × List (String × PyVal) :=
  match varsToCapture with
  | Option.none => (true, captureAll ns)
  | some vars => (true, captureSubset ns vars)

/-- The aggregate record `AutoGrader.get_summary` builds (its `results`
echo of the ledger itself is omitted). -/
structure Summary where
  totalTests : ℕ
  passed : ℕ
  failed : ℕ
  successRate : ℚ
  score : String
deriving DecidableEq, Repr

/-- `AutoGrader.get_summary()` over the result ledger. -/
def getSummary (results : List TestResult) : Summary :=
  let total := results.length
  let passed := (results.filter fun r => r.passed).length
  let failed := total - passed
  { totalTests := total
    passed := passed
    failed := failed
    successRate := if total > 0 then (passed : ℚ) / (total : ℚ) * 100 else 0
    score := s!"{passed}/{total}" }

/-- Embedded Python exceptions as they flow through `run_with_timeout`:
the module's own `TimeoutException` and any other exception identified by
kind and message. -/
inductive PyExc where
  | timeoutException : String → PyExc
  | otherExc : String → String → PyExc
deriving DecidableEq, Repr

/-- A value the timed action can produce: a plain value or an `Exception`
instance returned as a value (Python lets a function return an exception
object without raising it). -/
inductive RunValue where
  | val : PyVal → RunValue
  | excVal : PyExc → RunValue

/-- Abstract description of what the timed action did, standing in for the
worker thread (the thread itself is outside the embedding): it completed
with a value, raised, or was still running when the timed join expired. -/
inductive ActionBehavior where
  | completes : RunValue → ActionBehavior
  | raisesExc : PyExc → ActionBehavior
  | exceedsTimeout : ActionBehavior

/-- `run_with_timeout(func, timeout=...)`'s result protocol: the target
thread stores the produced value or the caught exception in the shared
cell; after the join the caller raises `TimeoutException` if the thread is
still alive, re-raises whatever the cell holds if it is an `Exception`
instance (`isinstance(result[0], Exception)`), and returns it otherwise.
`Except.error` models an exception raised in the caller's context. -/
def runWithTimeout (behavior : ActionBehavior) (timeout : ℕ) : Except PyExc RunValue :=
  match behavior with
  | ActionBehavior.exceedsTimeout =>
    Except.error (PyExc.timeoutException s!"Code execution timed out after {timeout} seconds")
  | ActionBehavior.raisesExc e => Except.error e
  | ActionBehavior.completes (RunValue.excVal e) => Except.error e
  | ActionBehavior.completes (RunValue.val v) => Except.ok (RunValue.val v)

/-- Embedded Python expression syntax tree, the fragment
`check_function_called` inspects: identifiers, attribute access, calls,
and an opaque constant for anything else. -/
inductive PyExpr where
  | name : String → PyExpr
  | attr : PyExpr → String → PyExpr
  | call : PyExpr → List PyExpr → PyExpr
  | constE : PyExpr

mutual

/-- The `.func` callee of every `ast.Call` node reachable in the tree
(`ast.walk` visits all nested nodes; only membership matters). -/
def callNodes : PyExpr → List PyExpr
  | PyExpr.name _ => []
  | PyExpr.constE => []
  | PyExpr.attr v _ => callNodes v
  | PyExpr.call f args => f :: (callNodes f ++ callNodesList args)

/-- `callNodes` over a list of expressions (a module's statements, or a
call's arguments). -/
def callNodesList : List PyExpr → List PyExpr
  | [] => []
  | x :: xs => callNodes x ++ callNodesList xs

end

/-- `AutoGrader._get_function_name_from_call`: only the final identifier
or attribute segment of the callee. -/
def getFunctionNameFromCall : PyExpr → Option String
  | PyExpr.name id => some id
  | PyExpr.attr _ a => some a
  | _ => Option.none

/-- The attribute segments the source's while-loop collects (innermost
first), with the base identifier prepended when the chain bottoms out in a
`Name`; a non-`Name` base contributes nothing, exactly as in the source. -/
def dottedParts : PyExpr → List String
  | PyExpr.name id => [id]
  | PyExpr.attr v a => dottedParts v ++ [a]
  | _ => []

/-- `AutoGrader._get_full_function_name_from_call`: the dotted path
reconstructed from nested attribute access. -/
def getFullFunctionNameFromCall : PyExpr → Option String
  | PyExpr.name id => some id
  | PyExpr.attr v a => some (String.intercalate "." (dottedParts v ++ [a]))
  | _ => Option.none

/-- The last element of `s.split('.')`: the characters after the final
dot, or the whole string when it has no dot. -/
def lastDotSegmentAux : List Char → List Char → List Char
  | [], acc => acc
  | c :: rest, acc =>
    if c = '.' then lastDotSegmentAux rest [] else lastDotSegmentAux rest (acc ++ [c])

/-- `func_name.split('.')[-1]` as the source computes it. -/
def lastDotSegment (s : String) : String :=
  String.mk (lastDotSegmentAux s.toList [])

/-- `AutoGrader.check_function_called(func_name, match_any_prefix)` over a
parsed module (a list of top-level expressions); `anyPfx` is the source's
`match_any_prefix` flag.  Prefix matching compares only the final
identifier/attribute segment against the final dot-segment of
`func_name`; exact matching compares the reconstructed full dotted name
(or a bare identifier) against `func_name`. -/
def checkFunctionCalled (tree : List PyExpr) (funcName : String) (anyPfx : Bool) : Bool :=
  let finalName := lastDotSegment funcName
  (callNodesList tree).any fun f =>
    if anyPfx then getFunctionNameFromCall f == some finalName
    else
      getFullFunctionNameFromCall f == some funcName ||
        (match f with | PyExpr.name id => id == funcName | _ => false)

/-- Spec-side (from the amended wording): the numpy `allclose` pass
condition with its default relative tolerance — every paired element
satisfies `|a_i - e_i| <= tolerance + 1e-5 * |e_i|`. -/
def closeAllSpec (as es : List ℚ) (tol : ℚ) : Prop :=
  ∀ p ∈ as.zip es, |p.1 - p.2| ≤ tol + (1 / 100000) * |p.2|

/-- Spec-side (from the claim's wording): the maximum elementwise absolute
difference is within the tolerance — every paired element satisfies
`|s_i - o_i| <= tolerance`. -/
def exactCloseSpec (ss os : List ℚ) (tol : ℚ) : Prop :=
  ∀ p ∈ ss.zip os, |p.1 - p.2| ≤ tol

/-- Spec-side (from the claim's wording): the callee is a well-formed
dotted name — a bare identifier or nested attribute access bottoming out
in an identifier. -/
def dottedOk : PyExpr → Bool
  | PyExpr.name _ => true
  | PyExpr.attr v _ => dottedOk v
  | _ => false

/-- Spec-side (from the claim's wording): the full dotted attribute path
of a callee. -/
def dottedPath (f : PyExpr) : String :=
  String.intercalate "." (dottedParts f)

/-- Test fixture: a grader that executed successfully and captured the
single variable `x` bound to a numpy array. -/
def mkStA (a : List ℚ) : AutoGrader := ⟨true, [("x", PyVal.array a)]⟩

/-- Test fixture: a grader that executed successfully and captured the
single variable `x` bound to a Python list. -/
def mkStL (xs : List PyVal) : AutoGrader := ⟨true, [("x", PyVal.list xs)]⟩

/-- Fixture: the parsed module `np.mean(x)`. -/
def srcNpMean : List PyExpr :=
  [PyExpr.call (PyExpr.attr (PyExpr.name "np") "mean") [PyExpr.name "x"]]

/-- Fixture: the parsed module `numpy.mean(x)`. -/
def srcNumpyMean : List PyExpr :=
  [PyExpr.call (PyExpr.attr (PyExpr.name "numpy") "mean") [PyExpr.name "x"]]

/-- Fixture: the parsed module `statistics.mean(x)`. -/
def srcStatisticsMean : List PyExpr :=
  [PyExpr.call (PyExpr.attr (PyExpr.name "statistics") "mean") [PyExpr.name "x"]]

/-- Fixture: the parsed module `mean(x)`. -/
def srcBareMean : List PyExpr :=
  [PyExpr.call (PyExpr.name "mean") [PyExpr.name "x"]]

/-- Fixture: the parsed module `meaning(x)`. -/
def srcMeaning : List PyExpr :=
  [PyExpr.call (PyExpr.name "meaning") [PyExpr.name "x"]]

theorem ncloseAll_iff (as bs : List ℚ) (atol : ℚ) :
    ncloseAll as bs atol = true ↔ closeAllSpec as bs atol := by
  simp [ncloseAll, closeAllSpec, List.all_eq_true, rtolDefault]

theorem foldl_max_le_iff (l : List ℚ) (init c : ℚ) :
    l.foldl max init ≤ c ↔ (init ≤ c ∧ ∀ x ∈ l, x ≤ c) := by
  induction l generalizing init with
  | nil => simp
  | cons x xs ih =>
    simp only [List.foldl_cons, ih, max_le_iff, List.forall_mem_cons]
    tauto

/-- C1: for a session whose execution succeeded and whose variable `v` was
captured with numeric value `a`, `check_variable_value(v, e, t)` returns
`True` (appending a single pass record) iff `|a - e| <= t`; consequently a
pass at tolerance `t` is preserved at every tolerance `t' >= t`. -/
theorem c1_check_variable_value_numeric_tolerance
    (g : AutoGrader) (v : String) (a e t t' : ℚ)
    (hexec : g.executionSuccessful = true)
    (hcap : g.capturedVars.lookup v = some (PyVal.num a))
    (ht : t ≤ t') :
    ((checkVariableValue g v (PyVal.num e) t).map Prod.fst = some true ↔ |a - e| ≤ t) ∧
    ((checkVariableValue g v (PyVal.num e) t).map Prod.fst = some true →
      (checkVariableValue g v (PyVal.num e) t').map Prod.fst = some true) := by
  have key : ∀ s : ℚ,
      (checkVariableValue g v (PyVal.num e) s).map Prod.fst = some true ↔ |a - e| ≤ s := by
    intro s
    simp [checkVariableValue, hexec, hcap, checkVariableValueWithActual]
    split_ifs with h <;> simp [h]
  exact ⟨key t, fun hp => (key t').mpr (le_trans ((key t).mp hp) ht)⟩

theorem c1_check_variable_value_numeric_tolerance_witness :
    (List.lookup "v" [("v", PyVal.num 3)] = some (PyVal.num 3)) ∧
    (((checkVariableValue ⟨true, [("v", PyVal.num 3)]⟩ "v" (PyVal.num (31/10)) (1/10)).map
        Prod.fst = some true ↔ |(3:ℚ) - 31/10| ≤ 1/10) ∧
      ((checkVariableValue ⟨true, [("v", PyVal.num 3)]⟩ "v" (PyVal.num (31/10)) (1/10)).map
          Prod.fst = some true →
        (checkVariableValue ⟨true, [("v", PyVal.num 3)]⟩ "v" (PyVal.num (31/10)) 1).map
          Prod.fst = some true)) :=
  ⟨rfl, c1_check_variable_value_numeric_tolerance ⟨true, [("v", PyVal.num 3)]⟩ "v" 3 (31/10)
    (1/10) 1 rfl rfl (by norm_num)⟩

/-- C6: with `require_same_type=True`, whenever exactly one side is a
numpy array and the other a bare list or tuple, the per-variable
comparison fails with a record naming both observed types, whatever the
element values are. -/
theorem c6_require_same_type_gate (varName : String) (xs : List ℚ) (ys : List PyVal) (tol : ℚ) :
    compareValuesDetailed varName (PyVal.array xs) (PyVal.list ys) tol true =
      some (false, [⟨false, Msg.typeMismatch varName "numpy array" "list"⟩]) ∧
    compareValuesDetailed varName (PyVal.list ys) (PyVal.array xs) tol true =
      some (false, [⟨false, Msg.typeMismatch varName "list" "numpy array"⟩]) ∧
    compareValuesDetailed varName (PyVal.array xs) (PyVal.tuple ys) tol true =
      some (false, [⟨false, Msg.typeMismatch varName "numpy array" "list"⟩]) ∧
    compareValuesDetailed varName (PyVal.tuple ys) (PyVal.array xs) tol true =
      some (false, [⟨false, Msg.typeMismatch varName "list" "numpy array"⟩]) :=
  ⟨rfl, rfl, rfl, rfl⟩

/-- C7 (amended): `run_with_timeout` returns the produced value when it is
not an `Exception` instance, re-raises a produced `Exception` instance as
well as any exception the action raised, and raises the module's
`TimeoutException` when the action outruns the deadline. -/
theorem c7_run_with_timeout_result_protocol (v : PyVal) (e : PyExc) (t : ℕ) :
    runWithTimeout (ActionBehavior.completes (RunValue.val v)) t = Except.ok (RunValue.val v) ∧
    runWithTimeout (ActionBehavior.completes (RunValue.excVal e)) t = Except.error e ∧
    runWithTimeout (ActionBehavior.raisesExc e) t = Except.error e ∧
    runWithTimeout ActionBehavior.exceedsTimeout t =
      Except.error (PyExc.timeoutException s!"Code execution timed out after {t} seconds") :=
  ⟨rfl, rfl, rfl, rfl⟩

/-- C7 counterexample: an action that completes normally, producing an
`Exception` instance as its value, does not get that value returned — the
call raises it instead. -/
theorem c7_counterexample :
    runWithTimeout
        (ActionBehavior.completes (RunValue.excVal (PyExc.otherExc "ValueError" "boom"))) 10 =
      Except.error (PyExc.otherExc "ValueError" "boom") ∧
    runWithTimeout
        (ActionBehavior.completes (RunValue.excVal (PyExc.otherExc "ValueError" "boom"))) 10 ≠
      Except.ok (RunValue.excVal (PyExc.otherExc "ValueError" "boom")) := by
  refine ⟨rfl, ?_⟩
  intro h
  simp [runWithTimeout] at h

/-- C8 (amended): capturing all top-level names never captures
`__builtins__`; capturing a caller-specified subset captures exactly the
requested names, so `__builtins__` appears there iff it was requested. -/
theorem c8_captured_builtins (ns : List (String × PyVal)) (vars : List String) :
    "__builtins__" ∉ ((executeScript ns Option.none).2.map Prod.fst) ∧
    ((executeScript ns (some vars)).2.map Prod.fst) = vars := by
  constructor
  · simp only [executeScript, captureAll, List.mem_map, List.mem_filter]
    rintro ⟨kv, ⟨-, hpred⟩, hfst⟩
    rw [hfst] at hpred
    simp at hpred
  · simp [executeScript, captureSubset, List.map_map, Function.comp_def]

/-- C8 counterexample: requesting `__builtins__` itself in the capture
list puts it into the captured-variables mapping. -/
theorem c8_counterexample :
    ("__builtins__", PyVal.noneV) ∈ (executeScript [] (some ["__builtins__"])).2 := by
  simp [executeScript, captureSubset, List.lookup]

/-- C9: the summary's totals are the ledger's length, its pass count, and
their difference, and the percentage is `passed/total*100` for a nonempty
ledger and `0` for an empty one — no division fault. -/
theorem c9_get_summary (results : List TestResult) :
    (getSummary results).totalTests = results.length ∧
    (getSummary results).passed = (results.filter fun r => r.passed).length ∧
    (getSummary results).failed =
      results.length - (results.filter fun r => r.passed).length ∧
    (getSummary results).successRate =
      (if results.length = 0 then 0
       else ((results.filter fun r => r.passed).length : ℚ) / (results.length : ℚ) * 100) := by
  refine ⟨rfl, rfl, rfl, ?_⟩
  by_cases h : results.length = 0 <;> simp [getSummary, h, Nat.pos_iff_ne_zero]

theorem captureSubset_lookup_of_mem (ns : List (String × PyVal)) (vars : List String)
    (name : String) (hmem : name ∈ vars) :
    (captureSubset ns vars).lookup name = some ((ns.lookup name).getD PyVal.noneV) := by
  induction vars with
  | nil => cases hmem
  | cons v vs ih =>
    rcases List.mem_cons.mp hmem with h | h
    · subst h
      simp [captureSubset, List.lookup]
    · by_cases hv : name = v
      · subst hv
        simp [captureSubset, List.lookup]
      · have hb : (name == v) = false := beq_eq_false_iff_ne.mpr hv
        simpa [captureSubset, List.lookup, hb] using ih h

/-- C10: requesting a name the script never defines still captures it,
bound to `None`, and a later `check_variable_value(name, None)` passes
with the `is None as expected` record rather than failing with `variable
not found`. -/
theorem c10_missing_requested_variable (ns : List (String × PyVal)) (vars : List String)
    (name : String) (tol : ℚ)
    (hmem : name ∈ vars) (hmiss : ns.lookup name = Option.none) :
    (executeScript ns (some vars)).1 = true ∧
    (executeScript ns (some vars)).2.lookup name = some PyVal.noneV ∧
    checkVariableValue ⟨(executeScript ns (some vars)).1, (executeScript ns (some vars)).2⟩
        name PyVal.noneV tol = some (true, [⟨true, Msg.isNoneAsExpected name⟩]) := by
  have hcap : (captureSubset ns vars).lookup name = some PyVal.noneV := by
    rw [captureSubset_lookup_of_mem ns vars name hmem, hmiss]
    rfl
  refine ⟨rfl, hcap, ?_⟩
  simp [executeScript, checkVariableValue, hcap, checkVariableValueWithActual]

theorem c10_missing_requested_variable_witness :
    ("y" ∈ ["y"]) ∧ (List.lookup "y" ([] : List (String × PyVal)) = Option.none) ∧
    ((executeScript [] (some ["y"])).1 = true ∧
      (executeScript [] (some ["y"])).2.lookup "y" = some PyVal.noneV ∧
      checkVariableValue ⟨(executeScript [] (some ["y"])).1, (executeScript [] (some ["y"])).2⟩
          "y" PyVal.noneV 0 = some (true, [⟨true, Msg.isNoneAsExpected "y"⟩])) :=
  ⟨List.mem_singleton.mpr rfl, rfl,
    c10_missing_requested_variable [] ["y"] "y" 0 (List.mem_singleton.mpr rfl) rfl⟩

/-- C2 counterexample: (i) `check_variable_value` on the captured list
`[5]` against expected `[5, 5]` passes even though the shapes differ
(numpy broadcasts; there is no shape gate), and (ii) `check_array_equals`
on equal-shaped `[1000000]` vs `[1000010]` with tolerance `0` passes even
though the elementwise difference is `10 > 0` (`np.allclose`'s default
relative tolerance `1e-5 * |expected|` is added). -/
theorem c2_counterexample :
    (checkVariableValue (mkStL [PyVal.num 5]) "x"
        (PyVal.list [PyVal.num 5, PyVal.num 5]) (1/10)).map Prod.fst = some true ∧
    (checkArrayEquals (mkStA [1000000]) "x" (PyVal.array [1000010]) 0).map Prod.fst =
      some true := by
  constructor
  · simp [mkStL, checkVariableValue, checkVariableValueWithActual, isSeqLike, toArr, asNums,
      allclose, ncloseAll, rtolDefault]
    norm_num
  · simp [mkStA, checkArrayEquals, isSeqLike, npShape, toArr, ncloseAll, rtolDefault]
    norm_num [abs_le]

theorem checkArrayEquals_arr (a e : List ℚ) (tol : ℚ) :
    checkArrayEquals (mkStA a) "x" (PyVal.array e) tol =
      (if a.length = e.length then
        (if ncloseAll a e tol then some (true, [⟨true, Msg.arrEqMatch "x"⟩])
         else some (false, [⟨false, Msg.arrEqMismatch "x"⟩]))
       else some (false, [⟨false, Msg.shapeMismatch "x" [a.length] [e.length]⟩])) := by
  by_cases hl : a.length = e.length <;>
    simp [mkStA, checkArrayEquals, isSeqLike, npShape, toArr, hl]

theorem compareValuesDetailed_arr (v : String) (a e : List ℚ) (tol : ℚ) :
    compareValuesDetailed v (PyVal.array a) (PyVal.array e) tol false =
      (if a.length = e.length then
        (if a.length = 0 then some (true, [⟨true, Msg.solutionMatchFallback v⟩])
         else if ((a.zip e).map fun p => |p.1 - p.2|).foldl max 0 ≤ tol then
           some (true, [⟨true, Msg.solutionMatch v (((a.zip e).map fun p => |p.1 - p.2|).foldl max 0)⟩])
         else
           some (false, [⟨false,
             Msg.differsAt v ((a.zip e).findIdx fun p => tol < |p.1 - p.2|)
               (a.getD ((a.zip e).findIdx fun p => tol < |p.1 - p.2|) 0)
               (e.getD ((a.zip e).findIdx fun p => tol < |p.1 - p.2|) 0)⟩]))
       else some (false, [⟨false, Msg.shapeMismatch v [a.length] [e.length]⟩])) := by
  by_cases hl : a.length = e.length
  · by_cases hz : a.length = 0
    · simp [compareValuesDetailed, isSeqLike, npShape, toArr, hl, hz]
    · by_cases hm : ((a.zip e).map fun p => |p.1 - p.2|).foldl max 0 ≤ tol <;>
        simp [compareValuesDetailed, isSeqLike, npShape, toArr, hl, hz, hm]
  · simp [compareValuesDetailed, isSeqLike, npShape, toArr, hl]

theorem checkVariableValue_arr (a e : List ℚ) (tol : ℚ) :
    (checkVariableValue (mkStA a) "x" (PyVal.array e) tol).map Prod.fst =
      some ((allclose a e tol).getD false) := by
  have hred : checkVariableValue (mkStA a) "x" (PyVal.array e) tol =
      (match allclose a e tol with
       | some true => some (true, [⟨true, Msg.seqMatch "x"⟩])
       | some false => some (false, [⟨false, Msg.seqMismatch "x"⟩])
       | Option.none => eqFallback "x" (PyVal.array a) (PyVal.array e)) := by
    simp [mkStA, checkVariableValue, checkVariableValueWithActual, isSeqLike, toArr]
  rw [hred]
  rcases hac : allclose a e tol with _ | b
  · have hl : ¬ a.length = e.length := by
      intro h
      rw [allclose, if_pos h] at hac
      exact Option.noConfusion hac
    have h1 : ¬ a.length = 1 := by
      intro h
      rw [allclose, if_neg hl, if_pos h] at hac
      exact Option.noConfusion hac
    have he1 : ¬ e.length = 1 := by
      intro h
      rw [allclose, if_neg hl, if_neg h1, if_pos h] at hac
      exact Option.noConfusion hac
    have hfb : eqFallback "x" (PyVal.array a) (PyVal.array e) =
        some (false, [⟨false, Msg.eqMismatch "x"⟩]) := by
      simp only [eqFallback, truthyEq, arrayEqList, List.length_map]
      rw [if_neg hl, if_neg h1, if_neg he1]
    simp [hfb]
  · cases b <;> simp

/-- C2 (amended): `check_array_equals` and the solution comparison fail on
a shape mismatch before any elementwise comparison; with equal shapes the
solution comparison passes iff the maximum elementwise absolute difference
is within the tolerance, while `check_array_equals` passes iff numpy's
`allclose` holds, i.e. elementwise `|a_i - e_i| <= tolerance + 1e-5*|e_i|`;
`check_variable_value` has no shape gate at all — it applies `allclose`
semantics including numpy broadcasting, so a length-1 side is compared
against every element of the other side instead of failing, and only
unbroadcastable length pairs fail. -/
theorem c2_amended_tolerant_array_comparison (a e : List ℚ) (tol : ℚ) :
    ((checkArrayEquals (mkStA a) "x" (PyVal.array e) tol).map Prod.fst = some true ↔
      (a.length = e.length ∧ closeAllSpec a e tol)) ∧
    (a.length ≠ e.length →
      checkArrayEquals (mkStA a) "x" (PyVal.array e) tol =
        some (false, [⟨false, Msg.shapeMismatch "x" [a.length] [e.length]⟩])) ∧
    ((compareValuesDetailed "x" (PyVal.array a) (PyVal.array e) tol false).map Prod.fst =
        some true ↔ (a.length = e.length ∧ exactCloseSpec a e tol)) ∧
    (a.length ≠ e.length →
      compareValuesDetailed "x" (PyVal.array a) (PyVal.array e) tol false =
        some (false, [⟨false, Msg.shapeMismatch "x" [a.length] [e.length]⟩])) ∧
    ((checkVariableValue (mkStA a) "x" (PyVal.array e) tol).map Prod.fst = some true ↔
      ((a.length = e.length ∧ closeAllSpec a e tol) ∨
       (a.length ≠ e.length ∧ a.length = 1 ∧
         closeAllSpec (List.replicate e.length (a.headD 0)) e tol) ∨
       (a.length ≠ e.length ∧ a.length ≠ 1 ∧ e.length = 1 ∧
         closeAllSpec a (List.replicate a.length (e.headD 0)) tol))) := by
  refine ⟨?_, ?_, ?_, ?_, ?_⟩
  · rw [checkArrayEquals_arr]
    by_cases hl : a.length = e.length
    · by_cases hc : ncloseAll a e tol = true
      · simp [hl, hc, (ncloseAll_iff a e tol).mp hc]
      · simp [hl, hc]
        exact fun hspec => hc ((ncloseAll_iff a e tol).mpr hspec)
    · simp [hl]
  · intro hl
    rw [checkArrayEquals_arr, if_neg hl]
  · rw [compareValuesDetailed_arr "x"]
    by_cases hl : a.length = e.length
    · by_cases hz : a.length = 0
      · have hzs : a = [] := List.length_eq_zero.mp hz
        have hes : e = [] := List.length_eq_zero.mp (by omega)
        simp [hl, hz, hzs, hes, exactCloseSpec]
      · have hee : e ≠ [] := by
          intro h
          apply hz
          rw [h] at hl
          simpa using hl
        by_cases hm : ((a.zip e).map fun p => |p.1 - p.2|).foldl max 0 ≤ tol
        · have hall : exactCloseSpec a e tol := fun p hp =>
            ((foldl_max_le_iff _ _ _).mp hm).2 _ (List.mem_map_of_mem _ hp)
          simp [hl, hz, hm, hall, hee]
        · have hnall : ¬ exactCloseSpec a e tol := by
            intro hall
            apply hm
            rw [foldl_max_le_iff]
            have hpos : 0 < (a.zip e).length := by
              rw [List.length_zip]
              omega
            constructor
            · obtain ⟨p, hp⟩ := List.exists_mem_of_length_pos hpos
              exact le_trans (abs_nonneg _) (hall p hp)
            · intro x hx
              obtain ⟨p, hp, rfl⟩ := List.mem_map.mp hx
              exact hall p hp
          simp [hl, hz, hm, hnall, hee]
    · simp [hl]
  · intro hl
    rw [compareValuesDetailed_arr, if_neg hl]
  · rw [checkVariableValue_arr]
    by_cases hl : a.length = e.length
    · simp only [allclose, if_pos hl]
      simp [hl]
      exact ncloseAll_iff a e tol
    · by_cases h1 : a.length = 1
      · have hl1 : ¬ (1:ℕ) = e.length := by omega
        simp only [allclose, if_neg hl, if_pos h1]
        simp [List.map_const', h1, hl, hl1]
        exact ncloseAll_iff _ e tol
      · by_cases he1 : e.length = 1
        · simp only [allclose, if_neg hl, if_neg h1, if_pos he1]
          simp [List.map_const', hl, h1, he1]
          exact ncloseAll_iff a _ tol
        · simp only [allclose, if_neg hl, if_neg h1, if_neg he1]
          simp [hl, h1, he1]



set_option maxHeartbeats 1000000 in
/-- C3: when the solution comparison sees two same-shaped nonempty numeric
arrays whose maximum absolute difference exceeds the tolerance, it returns
`False` and its single appended record reports the first (least) index at
which `|student - solution| > tolerance`, together with the student and
solution values at that index; in particular student `[1, 2, 3.5]` vs
solution `[1, 2, 3]` at tolerance `0.1` fails reporting index `2` with
values `3.5` and `3`. -/
theorem c3_solution_diff_first_index (v : String) (ss os : List ℚ) (tol : ℚ)
    (hlen : ss.length = os.length) (hne : ss ≠ [])
    (hdiff : ¬ exactCloseSpec ss os tol) :
    (∃ i : ℕ, i < ss.length ∧ tol < |ss.getD i 0 - os.getD i 0| ∧
      (∀ j, j < i → |ss.getD j 0 - os.getD j 0| ≤ tol) ∧
      compareValuesDetailed v (PyVal.array ss) (PyVal.array os) tol false =
        some (false, [⟨false, Msg.differsAt v i (ss.getD i 0) (os.getD i 0)⟩])) ∧
    compareValuesDetailed "x" (PyVal.array [1, 2, 7/2]) (PyVal.array [1, 2, 3]) (1/10) false =
      some (false, [⟨false, Msg.differsAt "x" 2 (7/2) 3⟩]) := by
  constructor
  · have hz : ¬ ss.length = 0 := fun h => hne (List.length_eq_zero.mp h)
    have hex : ∃ p ∈ ss.zip os, (fun p : ℚ × ℚ => decide (tol < |p.1 - p.2|)) p = true := by
      rw [exactCloseSpec] at hdiff
      push_neg at hdiff
      obtain ⟨p, hp, hlt⟩ := hdiff
      exact ⟨p, hp, by simpa using hlt⟩
    obtain ⟨i, hidef⟩ :
        ∃ i, ((ss.zip os).findIdx fun p => decide (tol < |p.1 - p.2|)) = i := ⟨_, rfl⟩
    have hilt : i < (ss.zip os).length := hidef ▸ List.findIdx_lt_length_of_exists hex
    have hzl : (ss.zip os).length = ss.length := by
      rw [List.length_zip]
      omega
    have hiss : i < ss.length := hzl ▸ hilt
    have hios : i < os.length := by omega
    have hm : ¬ (((ss.zip os).map fun p => |p.1 - p.2|).foldl max 0 ≤ tol) := by
      intro hle
      obtain ⟨p, hp, hpt⟩ := hex
      have h2 := ((foldl_max_le_iff _ _ _).mp hle).2 _ (List.mem_map_of_mem _ hp)
      simp at hpt
      exact absurd h2 (not_le.mpr hpt)
    have hgds : ss.getD i 0 = ss[i] := by
      rw [List.getD_eq_getElem?_getD, List.getElem?_eq_getElem hiss]
      rfl
    have hgdo : os.getD i 0 = os[i] := by
      rw [List.getD_eq_getElem?_getD, List.getElem?_eq_getElem hios]
      rfl
    refine ⟨i, hiss, ?_, ?_, ?_⟩
    · have hpi := @List.findIdx_getElem _ (fun p : ℚ × ℚ => decide (tol < |p.1 - p.2|))
        (ss.zip os) (hidef ▸ hilt)
      rw [List.getElem_zip] at hpi
      simp only [hidef] at hpi
      rw [hgds, hgdo]
      simpa using hpi
    · intro j hj
      have hjs : j < ss.length := lt_trans hj hiss
      have hjo : j < os.length := by omega
      have hjf := @List.not_of_lt_findIdx _ (fun p : ℚ × ℚ => decide (tol < |p.1 - p.2|))
        (ss.zip os) j (hidef ▸ hj)
      rw [List.getElem_zip] at hjf
      have hgds2 : ss.getD j 0 = ss[j] := by
        rw [List.getD_eq_getElem?_getD, List.getElem?_eq_getElem hjs]
        rfl
      have hgdo2 : os.getD j 0 = os[j] := by
        rw [List.getD_eq_getElem?_getD, List.getElem?_eq_getElem hjo]
        rfl
      rw [hgds2, hgdo2]
      exact not_lt.mp (of_decide_eq_false hjf)
    · rw [compareValuesDetailed_arr v, if_pos hlen, if_neg hz, if_neg hm, hidef, hgds, hgdo]
  · simp [compareValuesDetailed, isSeqLike, npShape, toArr, List.findIdx, List.findIdx.go]
    norm_num [lt_abs]

theorem c2_amended_tolerant_array_comparison_witness :
    checkArrayEquals (mkStA [1]) "x" (PyVal.array [1, 2]) 0 =
      some (false, [⟨false, Msg.shapeMismatch "x" [1] [2]⟩]) ∧
    compareValuesDetailed "x" (PyVal.array [1]) (PyVal.array [1, 2]) 0 false =
      some (false, [⟨false, Msg.shapeMismatch "x" [1] [2]⟩]) :=
  ⟨(c2_amended_tolerant_array_comparison [1] [1, 2] 0).2.1 (by decide),
   (c2_amended_tolerant_array_comparison [1] [1, 2] 0).2.2.2.1 (by decide)⟩

theorem c3_solution_diff_first_index_witness :
    (([1, 2, 7/2] : List ℚ).length = ([1, 2, 3] : List ℚ).length) ∧
    (([1, 2, 7/2] : List ℚ) ≠ []) ∧
    (¬ exactCloseSpec [1, 2, 7/2] [1, 2, 3] (1/10)) ∧
    compareValuesDetailed "x" (PyVal.array [1, 2, 7/2]) (PyVal.array [1, 2, 3]) (1/10) false =
      some (false, [⟨false, Msg.differsAt "x" 2 (7/2) 3⟩]) := by
  have hne : ([1, 2, 7/2] : List ℚ) ≠ [] := List.cons_ne_nil _ _
  have hdiff : ¬ exactCloseSpec [1, 2, 7/2] [1, 2, 3] (1/10) := by
    intro h
    have hmem : ((7/2 : ℚ), (3 : ℚ)) ∈ (([1, 2, 7/2] : List ℚ).zip ([1, 2, 3] : List ℚ)) := by
      simp [List.zip]
    have := h _ hmem
    norm_num [abs_le] at this
  exact ⟨rfl, hne, hdiff,
    (c3_solution_diff_first_index "x" [1, 2, 7/2] [1, 2, 3] (1/10) rfl hne hdiff).2⟩

theorem intercalate_singleton (s : String) : String.intercalate "." [s] = s := by
  simp [String.intercalate, String.intercalate.go]

theorem fullName_of_dottedOk (f : PyExpr) (h : dottedOk f = true) :
    getFullFunctionNameFromCall f = some (dottedPath f) := by
  cases f with
  | name id => simp [getFullFunctionNameFromCall, dottedPath, dottedParts, intercalate_singleton]
  | attr v a => rfl
  | call f args => simp [dottedOk] at h
  | constE => simp [dottedOk] at h

theorem finalName_of_dottedOk (f : PyExpr) (h : dottedOk f = true) :
    getFunctionNameFromCall f = some ((dottedParts f).getLastD "") := by
  cases f with
  | name id => rfl
  | attr v a => simp [getFunctionNameFromCall, dottedParts, List.getLastD_concat]
  | call f args => simp [dottedOk] at h
  | constE => simp [dottedOk] at h

/-- C5: over a module whose call sites are well-formed dotted callees,
`check_function_called(name, match_any_prefix=False)` returns `True` iff
some call's full dotted path equals `name` exactly, and with
`match_any_prefix=True` iff some call's final identifier/attribute segment
equals the final dot-segment of `name`; in particular prefix matching on
`"mean"` accepts `np.mean(x)`, `numpy.mean(x)`, `statistics.mean(x)` and
`mean(x)` but rejects `meaning(x)`, while exact matching on `"np.mean"`
accepts only `np.mean(...)`, rejecting `numpy.mean(...)` and bare
`mean(...)`. -/
theorem c5_check_function_called_matching (tree : List PyExpr) (funcName : String)
    (hok : ∀ f ∈ callNodesList tree, dottedOk f = true) :
    (checkFunctionCalled tree funcName false = true ↔
      ∃ f ∈ callNodesList tree, dottedPath f = funcName) ∧
    (checkFunctionCalled tree funcName true = true ↔
      ∃ f ∈ callNodesList tree, (dottedParts f).getLastD "" = lastDotSegment funcName) ∧
    (checkFunctionCalled srcNpMean "mean" true = true ∧
     checkFunctionCalled srcNumpyMean "mean" true = true ∧
     checkFunctionCalled srcStatisticsMean "mean" true = true ∧
     checkFunctionCalled srcBareMean "mean" true = true ∧
     checkFunctionCalled srcMeaning "mean" true = false ∧
     checkFunctionCalled srcNpMean "np.mean" false = true ∧
     checkFunctionCalled srcNumpyMean "np.mean" false = false ∧
     checkFunctionCalled srcBareMean "np.mean" false = false) := by
  have hunfExact : checkFunctionCalled tree funcName false =
      ((callNodesList tree).any fun f =>
        getFullFunctionNameFromCall f == some funcName ||
          (match f with | PyExpr.name id => id == funcName | _ => false)) := rfl
  have hunfAny : checkFunctionCalled tree funcName true =
      ((callNodesList tree).any fun f =>
        getFunctionNameFromCall f == some (lastDotSegment funcName)) := rfl
  refine ⟨?_, ?_, ?_⟩
  · rw [hunfExact, List.any_eq_true]
    constructor
    · rintro ⟨f, hf, hmatch⟩
      refine ⟨f, hf, ?_⟩
      simp only [Bool.or_eq_true, beq_iff_eq] at hmatch
      rcases hmatch with hfull | hbare
      · rw [fullName_of_dottedOk f (hok f hf)] at hfull
        exact Option.some.inj hfull
      · cases f with
        | name id =>
          simp only [beq_iff_eq] at hbare
          rw [hbare] at *
          simp [dottedPath, dottedParts, intercalate_singleton]
        | attr v a => simp at hbare
        | call f args => simp at hbare
        | constE => simp at hbare
    · rintro ⟨f, hf, hpath⟩
      refine ⟨f, hf, ?_⟩
      simp [fullName_of_dottedOk f (hok f hf), hpath]
  · rw [hunfAny, List.any_eq_true]
    constructor
    · rintro ⟨f, hf, hmatch⟩
      refine ⟨f, hf, ?_⟩
      rw [finalName_of_dottedOk f (hok f hf)] at hmatch
      simpa using hmatch
    · rintro ⟨f, hf, hseg⟩
      refine ⟨f, hf, ?_⟩
      rw [finalName_of_dottedOk f (hok f hf)]
      simpa using hseg
  · refine ⟨?_, ?_, ?_, ?_, ?_, ?_, ?_, ?_⟩ <;>
      simp [checkFunctionCalled, callNodesList, callNodes, srcNpMean, srcNumpyMean,
        srcStatisticsMean, srcBareMean, srcMeaning, getFunctionNameFromCall,
        getFullFunctionNameFromCall, dottedParts, lastDotSegment, lastDotSegmentAux] <;>
      decide

theorem c5_check_function_called_matching_witness :
    (∀ f ∈ callNodesList srcNpMean, dottedOk f = true) ∧
    (checkFunctionCalled srcNpMean "np.mean" false = true ↔
      ∃ f ∈ callNodesList srcNpMean, dottedPath f = "np.mean") := by
  have hok : ∀ f ∈ callNodesList srcNpMean, dottedOk f = true := by
    intro f hf
    simp [callNodesList, callNodes, srcNpMean] at hf
    subst hf
    rfl
  exact ⟨hok, (c5_check_function_called_matching srcNpMean "np.mean" hok).1⟩

theorem allclose_none_lengths (as bs : List ℚ) (tol : ℚ)
    (h : allclose as bs tol = Option.none) :
    ¬ as.length = bs.length ∧ ¬ as.length = 1 ∧ ¬ bs.length = 1 := by
  have h1 : ¬ as.length = bs.length := fun hx => by
    rw [allclose, if_pos hx] at h
    exact Option.noConfusion h
  have h2 : ¬ as.length = 1 := fun hx => by
    rw [allclose, if_neg h1, if_pos hx] at h
    exact Option.noConfusion h
  have h3 : ¬ bs.length = 1 := fun hx => by
    rw [allclose, if_neg h1, if_neg h2, if_pos hx] at h
    exact Option.noConfusion h
  exact ⟨h1, h2, h3⟩

theorem eqFallback_array_array (varName : String) (xs ys : List ℚ)
    (hl : ¬ xs.length = ys.length) (h1 : ¬ xs.length = 1) (he1 : ¬ ys.length = 1) :
    eqFallback varName (PyVal.array xs) (PyVal.array ys) =
      some (false, [⟨false, Msg.eqMismatch varName⟩]) := by
  simp only [eqFallback, truthyEq, arrayEqList, List.length_map]
  rw [if_neg hl, if_neg h1, if_neg he1]

theorem c8_captured_builtins_witness :
    "__builtins__" ∉
      ((executeScript [("a", PyVal.num 1), ("__builtins__", PyVal.noneV)]
          Option.none).2.map Prod.fst) ∧
    ((executeScript [("a", PyVal.num 1)] (some ["a", "b"])).2.map Prod.fst) = ["a", "b"] :=
  ⟨(c8_captured_builtins [("a", PyVal.num 1), ("__builtins__", PyVal.noneV)] []).1,
   (c8_captured_builtins [("a", PyVal.num 1)] ["a", "b"]).2⟩
